import Mathlib

/-
  Verification development for the Docker Hub API client
  (pkg/dockerhub/client.go).

  The client is embedded shallowly: HTTP exchanges are mediated by a
  server oracle `Server σ : σ → HttpReq → σ × HttpResult`, client state
  is passed explicitly, and every operation additionally returns the list
  of HTTP requests it issued, so that request-counting properties
  (auth caching, exactly-once create) can be stated and proved.
  JSON bodies are modelled by an inductive `Json` value type together
  with decoders that mirror Go's `encoding/json.Unmarshal` semantics for
  the concrete struct types of the source (absent field => zero value,
  JSON null => no effect, type mismatch => error).
-/

namespace DockerHub

/-- JSON values, embedding the data model of Go's encoding/json. -/
inductive Json where
  | null
  | bool (b : Bool)
  | num (n : Int)
  | str (s : String)
  | arr (xs : List Json)
  | obj (fs : List (String × Json))

mutual

/-- Serialize a JSON value, modelling Go's string(raw) view of a body. -/
def Json.render : Json → String
  | .null => "null"
  | .bool true => "true"
  | .bool false => "false"
  | .num n => toString n
  | .str s => "\"" ++ s ++ "\""
  | .arr xs => "[" ++ renderElems xs ++ "]"
  | .obj fs => "\x7b" ++ renderFields fs ++ "\x7d"

/-- Serialize the elements of a JSON array. -/
def renderElems : List Json → String
  | [] => ""
  | [x] => Json.render x
  | x :: xs => Json.render x ++ "," ++ renderElems xs

/-- Serialize the fields of a JSON object. -/
def renderFields : List (String × Json) → String
  | [] => ""
  | [(k, v)] => "\"" ++ k ++ "\":" ++ Json.render v
  | (k, v) :: fs => "\"" ++ k ++ "\":" ++ Json.render v ++ "," ++ renderFields fs

end

/-- Look up a key in a JSON object's field list (first match wins). -/
def Json.lookup (k : String) : List (String × Json) → Option Json
  | [] => none
  | (k2, v) :: fs => if k2 = k then some v else Json.lookup k fs

/-- A raw HTTP response body: empty, non-empty but not valid JSON, or a
JSON document. -/
inductive RawBody where
  | empty
  | malformed (s : String)
  | json (j : Json)

/-- The body as the string Go sees in `string(raw)`. -/
def RawBody.render : RawBody → String
  | .empty => ""
  | .malformed s => s
  | .json j => j.render

/-- Go's `len(raw) > 0` test. -/
def RawBody.nonempty : RawBody → Bool
  | .empty => false
  | .malformed _ => true
  | .json _ => true

/-- Unmarshal a string-typed struct field: absent or null leaves the zero
value "", a JSON string is taken verbatim, any other value is a type
error (mirrors encoding/json). -/
def getStr (fs : List (String × Json)) (k : String) : Except String String :=
  match Json.lookup k fs with
  | none => .ok ("")
  | some .null => .ok ("")
  | some (.str s) => .ok s
  | some _ => .error ("json: cannot unmarshal into string field " ++ k)

/-- Unmarshal a bool-typed struct field (absent/null => false). -/
def getBool (fs : List (String × Json)) (k : String) : Except String Bool :=
  match Json.lookup k fs with
  | none => .ok false
  | some .null => .ok false
  | some (.bool b) => .ok b
  | some _ => .error ("json: cannot unmarshal into bool field " ++ k)

/-- Unmarshal an int-typed struct field (absent/null => 0). -/
def getInt (fs : List (String × Json)) (k : String) : Except String Int :=
  match Json.lookup k fs with
  | none => .ok 0
  | some .null => .ok 0
  | some (.num n) => .ok n
  | some _ => .error ("json: cannot unmarshal into int field " ++ k)

/-- Unmarshal a *string-typed struct field: absent or null is the nil
pointer, a JSON string is a non-nil pointer. -/
def getOptStr (fs : List (String × Json)) (k : String) : Except String (Option String) :=
  match Json.lookup k fs with
  | none => .ok none
  | some .null => .ok none
  | some (.str s) => .ok (some s)
  | some _ => .error ("json: cannot unmarshal into *string field " ++ k)

/-- Unmarshal a []string-typed struct field (absent/null => nil slice). -/
def getStrList (fs : List (String × Json)) (k : String) : Except String (List String) :=
  match Json.lookup k fs with
  | none => .ok []
  | some .null => .ok []
  | some (.arr xs) =>
      xs.foldr (fun x acc =>
        match x, acc with
        | .str s, .ok ss => .ok (s :: ss)
        | _, .error e => .error e
        | _, _ => .error ("json: cannot unmarshal into []string field " ++ k)) (.ok [])
  | some _ => .error ("json: cannot unmarshal into []string field " ++ k)

/-- Unmarshal a []T-typed struct field into the raw element list
(absent/null => nil slice, a non-array is a type error). -/
def getJsonList (fs : List (String × Json)) (k : String) : Except String (List Json) :=
  match Json.lookup k fs with
  | none => .ok []
  | some .null => .ok []
  | some (.arr xs) => .ok xs
  | some _ => .error ("json: cannot unmarshal into slice field " ++ k)

/-- Decode every element of a JSON array with the element decoder,
failing on the first element that fails. -/
def decodeList {T : Type} (d : Json → Except String T) : List Json → Except String (List T)
  | [] => .ok []
  | x :: xs =>
    match d x, decodeList d xs with
    | .ok t, .ok ts => .ok (t :: ts)
    | .error e, _ => .error e
    | _, .error e => .error e

/-- Lift a Json-level decoder to a raw body: an empty body or malformed
JSON is an unmarshal error (mirrors json.Unmarshal on raw bytes). -/
def rawDecode {α : Type} (d : Json → Except String α) : RawBody → Except String α
  | .empty => .error ("unexpected end of JSON input")
  | .malformed _ => .error ("invalid character in JSON input")
  | .json j => d j

/-- The error body shape of client.go: fields Message and Detail. -/
structure errorResponse where
  Message : String
  Detail : String
deriving DecidableEq

/-- errorResponse.text from client.go: Message wins when non-empty,
otherwise Detail. -/
def errorResponse.text (e : errorResponse) : String :=
  if e.Message ≠ "" then e.Message else e.Detail

/-- Unmarshal an errorResponse from a JSON document. -/
def decodeErrorResponseJ : Json → Except String errorResponse
  | .null => .ok ⟨"", ""⟩
  | .obj fs =>
    match getStr fs ("message"), getStr fs ("detail") with
    | .ok m, .ok d => .ok ⟨m, d⟩
    | .error e, _ => .error e
    | _, .error e => .error e
  | _ => .error ("json: cannot unmarshal into errorResponse")

/-- Unmarshal the auth response shape of authenticate: one field
access_token. -/
def decodeAuthJ : Json → Except String String
  | .null => .ok ("")
  | .obj fs => getStr fs ("access_token")
  | _ => .error ("json: cannot unmarshal into auth response")

/-- Repository from client.go. -/
structure Repository where
  Name : String
  Namespace : String
  Description : String
  IsPrivate : Bool
  StarCount : Int
  PullCount : Int
  LastUpdated : String
  DateRegistered : String
deriving DecidableEq

/-- The zero value of Repository (Go's `var repo Repository`). -/
def zeroRepository : Repository := ⟨"", "", "", false, 0, 0, "", ""⟩

/-- Unmarshal a Repository from a JSON document. -/
def decodeRepositoryJ : Json → Except String Repository
  | .null => .ok zeroRepository
  | .obj fs =>
    match getStr fs ("name"), getStr fs ("namespace"), getStr fs ("description"),
          getBool fs ("is_private") with
    | .ok n, .ok ns, .ok d, .ok p =>
      match getInt fs ("star_count"), getInt fs ("pull_count"),
            getStr fs ("last_updated"), getStr fs ("date_registered") with
      | .ok sc, .ok pc, .ok lu, .ok dr => .ok ⟨n, ns, d, p, sc, pc, lu, dr⟩
      | .error e, _, _, _ => .error e
      | _, .error e, _, _ => .error e
      | _, _, .error e, _ => .error e
      | _, _, _, .error e => .error e
    | .error e, _, _, _ => .error e
    | _, .error e, _, _ => .error e
    | _, _, .error e, _ => .error e
    | _, _, _, .error e => .error e
  | _ => .error ("json: cannot unmarshal into Repository")

/-- AccessToken from client.go. -/
structure AccessToken where
  UUID : String
  TokenLabel : String
  Scopes : List String
  IsActive : Bool
  Token : String
  CreatedAt : String
  LastUsed : String
  GeneratedBy : String
  CreatorIP : String
deriving DecidableEq

/-- The zero value of AccessToken (Go's `var token AccessToken`). -/
def zeroAccessToken : AccessToken := ⟨"", "", [], false, "", "", "", "", ""⟩

/-- Unmarshal an AccessToken from a JSON document. -/
def decodeAccessTokenJ : Json → Except String AccessToken
  | .null => .ok zeroAccessToken
  | .obj fs =>
    match getStr fs ("uuid"), getStr fs ("token_label"), getStrList fs ("scopes"),
          getBool fs ("is_active"), getStr fs ("token") with
    | .ok u, .ok tl, .ok sc, .ok ia, .ok tk =>
      match getStr fs ("created_at"), getStr fs ("last_used"),
            getStr fs ("generated_by"), getStr fs ("creator_ip") with
      | .ok ca, .ok lu, .ok gb, .ok ci => .ok ⟨u, tl, sc, ia, tk, ca, lu, gb, ci⟩
      | .error e, _, _, _ => .error e
      | _, .error e, _, _ => .error e
      | _, _, .error e, _ => .error e
      | _, _, _, .error e => .error e
    | .error e, _, _, _, _ => .error e
    | _, .error e, _, _, _ => .error e
    | _, _, .error e, _, _ => .error e
    | _, _, _, .error e, _ => .error e
    | _, _, _, _, .error e => .error e
  | _ => .error ("json: cannot unmarshal into AccessToken")

/-- The paginated envelope of getAll: count, next, previous, results. -/
structure Envelope (T : Type) where
  Count : Int
  Next : Option String
  Previous : Option String
  Results : List T

/-- The zero value of the envelope (Go's `var envelope struct`). -/
def emptyEnvelope (T : Type) : Envelope T := ⟨0, none, none, []⟩

/-- Unmarshal the paginated envelope, decoding each results element with
the given element decoder. -/
def decodeEnvelopeJ {T : Type} (decT : Json → Except String T) : Json → Except String (Envelope T)
  | .null => .ok (emptyEnvelope T)
  | .obj fs =>
    match getInt fs ("count"), getOptStr fs ("next"), getOptStr fs ("previous"),
          getJsonList fs ("results") with
    | .ok cnt, .ok nxt, .ok prv, .ok rj =>
      match decodeList decT rj with
      | .ok rs => .ok ⟨cnt, nxt, prv, rs⟩
      | .error e => .error e
    | .error e, _, _, _ => .error e
    | _, .error e, _, _ => .error e
    | _, _, .error e, _ => .error e
    | _, _, _, .error e => .error e
  | _ => .error ("json: cannot unmarshal into paginated envelope")

/-- The fixed API host of client.go. -/
def baseURL : String := "https://hub.docker.com"

/-- An HTTP request as the client builds it: method, absolute URL, an
optional JSON body and an optional bearer token header. -/
structure HttpReq where
  method : String
  url : String
  body : Option Json
  bearer : Option String

/-- What the transport yields for one request: a transport failure or a
response with a status code and a raw body. -/
inductive HttpResult where
  | transportErr (msg : String)
  | response (status : Nat) (body : RawBody)

/-- A server oracle: consumes a request, steps its own state. -/
def Server (σ : Type) : Type := σ → HttpReq → σ × HttpResult

/-- Client from client.go: credentials plus the cached jwt. -/
structure Client where
  Username : String
  Password : String
  jwt : String
deriving DecidableEq

/-- NewClient from client.go: lazy authentication, empty token cache. -/
def NewClient (username password : String) : Client := ⟨username, password, ""⟩

/-- Every distinct error construction site of client.go, one constructor
per fmt.Errorf shape (wrapping constructors carry the wrapped error). -/
inductive DHError where
  | authRequest (msg : String)
  | authFailedMsg (msg : String)
  | authFailedStatus (status : Nat)
  | decodeAuthResponse (msg : String)
  | httpRequest (msg : String)
  | apiErrorMsg (method endpoint : String) (status : Nat) (msg : String) (body : String)
  | apiErrorNoMsg (method endpoint : String) (status : Nat) (body : String)
  | decodeResponse (msg : String)
  | headApiError (status : Nat)
  | checkRepoExistence (e : DHError)
  | createRepoWrap (e : DHError)
deriving DecidableEq

/-- The error string each DHError renders to, following the fmt.Errorf
format strings of client.go. -/
def DHError.render : DHError → String
  | .authRequest m => "auth request: " ++ m
  | .authFailedMsg m => "authentication failed: " ++ m
  | .authFailedStatus k => "authentication failed: status " ++ toString k
  | .decodeAuthResponse m => "decode auth response: " ++ m
  | .httpRequest m => "http request: " ++ m
  | .apiErrorMsg me ep k m b =>
    "docker hub api error (" ++ me ++ " " ++ ep ++ ", status " ++ toString k ++ "): "
      ++ m ++ "\nresponse body: " ++ b
  | .apiErrorNoMsg me ep k b =>
    "docker hub api error (" ++ me ++ " " ++ ep ++ ", status " ++ toString k ++ ")"
      ++ "\nresponse body: " ++ b
  | .decodeResponse m => "decode response: " ++ m
  | .headApiError k => "docker hub api error: status " ++ toString k
  | .checkRepoExistence e => "check repo existence: " ++ e.render
  | .createRepoWrap e => "create repo: " ++ e.render

/-- Result of authenticate: new client and server state, the requests
issued, and the error if any. -/
structure AuthStep (σ : Type) where
  client : Client
  server : σ
  log : List HttpReq
  err : Option DHError

/-- The JSON body `identifier`/`secret` that authenticate posts. -/
def authPayload (c : Client) : Json :=
  .obj [(("identifier"), .str c.Username), (("secret"), .str c.Password)]

/-- The POST /v2/auth/token request authenticate issues. -/
def authReq (c : Client) : HttpReq :=
  ⟨"POST", baseURL ++ "/v2/auth/token", some (authPayload c), none⟩

/-- authenticate from client.go: no-op when a token is cached, otherwise
one POST to /v2/auth/token, storing access_token on a success status. -/
def authenticate {σ : Type} (srv : Server σ) (c : Client) (s : σ) : AuthStep σ :=
  if c.jwt ≠ "" then ⟨c, s, [], none⟩
  else
    let req := authReq c
    match srv s req with
    | (s2, .transportErr m) => ⟨c, s2, [req], some (.authRequest m)⟩
    | (s2, .response status raw) =>
      if 400 ≤ status then
        match rawDecode decodeErrorResponseJ raw with
        | .ok apiErr =>
          if apiErr.text ≠ "" then ⟨c, s2, [req], some (.authFailedMsg apiErr.text)⟩
          else ⟨c, s2, [req], some (.authFailedStatus status)⟩
        | .error _ => ⟨c, s2, [req], some (.authFailedStatus status)⟩
      else
        match rawDecode decodeAuthJ raw with
        | .error m => ⟨c, s2, [req], some (.decodeAuthResponse m)⟩
        | .ok tok => ⟨⟨c.Username, c.Password, tok⟩, s2, [req], none⟩

/-- Result of doRequest: like Go's (int, error) pair plus the final value
of the decode target (its initial value when no decode happened). -/
structure ReqStep (σ : Type) (α : Type) where
  client : Client
  server : σ
  log : List HttpReq
  status : Nat
  out : α
  err : Option DHError

/-- doRequest from client.go. The decode target is passed as an optional
pair of initial value and decoder (Go passes a pointer to a zero value;
encoding the request payload cannot fail for the payload shapes the
client uses, so no encode-error branch arises). -/
def doRequest {σ α : Type} (srv : Server σ) (method endpoint : String) (body : Option Json)
    (tgt : Option (α × (RawBody → Except String α))) (c : Client) (s : σ) :
    ReqStep σ (Option α) :=
  match authenticate srv c s with
  | ⟨c2, s2, lg, some e⟩ => ⟨c2, s2, lg, 0, tgt.map Prod.fst, some e⟩
  | ⟨c2, s2, lg, none⟩ =>
    let req : HttpReq := ⟨method, baseURL ++ endpoint, body, some c2.jwt⟩
    match srv s2 req with
    | (s3, .transportErr m) => ⟨c2, s3, lg ++ [req], 0, tgt.map Prod.fst, some (.httpRequest m)⟩
    | (s3, .response status raw) =>
      if 400 ≤ status then
        match rawDecode decodeErrorResponseJ raw with
        | .ok apiErr =>
          if apiErr.text ≠ "" then
            ⟨c2, s3, lg ++ [req], status, tgt.map Prod.fst,
              some (.apiErrorMsg method endpoint status apiErr.text raw.render)⟩
          else
            ⟨c2, s3, lg ++ [req], status, tgt.map Prod.fst,
              some (.apiErrorNoMsg method endpoint status raw.render)⟩
        | .error _ =>
          ⟨c2, s3, lg ++ [req], status, tgt.map Prod.fst,
            some (.apiErrorNoMsg method endpoint status raw.render)⟩
      else
        match tgt with
        | none => ⟨c2, s3, lg ++ [req], status, none, none⟩
        | some (init, dec) =>
          if raw.nonempty then
            match dec raw with
            | .ok v => ⟨c2, s3, lg ++ [req], status, some v, none⟩
            | .error m => ⟨c2, s3, lg ++ [req], status, some init, some (.decodeResponse m)⟩
          else ⟨c2, s3, lg ++ [req], status, some init, none⟩

/-- Result of the get/post/delete wrappers: they discard the status. -/
structure CallStep (σ : Type) (α : Type) where
  client : Client
  server : σ
  log : List HttpReq
  out : α
  err : Option DHError

/-- get from client.go. -/
def get {σ α : Type} (srv : Server σ) (endpoint : String)
    (tgt : Option (α × (RawBody → Except String α))) (c : Client) (s : σ) :
    CallStep σ (Option α) :=
  let r := doRequest srv ("GET") endpoint none tgt c s
  ⟨r.client, r.server, r.log, r.out, r.err⟩

/-- post from client.go (payload already a JSON value; marshalling the
client's payload shapes cannot fail). -/
def post {σ α : Type} (srv : Server σ) (endpoint : String) (payload : Json)
    (tgt : Option (α × (RawBody → Except String α))) (c : Client) (s : σ) :
    CallStep σ (Option α) :=
  let r := doRequest srv ("POST") endpoint (some payload) tgt c s
  ⟨r.client, r.server, r.log, r.out, r.err⟩

/-- delete from client.go. -/
def delete {σ : Type} (srv : Server σ) (endpoint : String) (c : Client) (s : σ) :
    CallStep σ (Option Unit) :=
  let r := doRequest srv ("DELETE") endpoint none (none : Option (Unit × (RawBody → Except String Unit))) c s
  ⟨r.client, r.server, r.log, r.out, r.err⟩

/-- Result of head: Go's (int, error) pair. -/
structure HeadStep (σ : Type) where
  client : Client
  server : σ
  log : List HttpReq
  status : Nat
  err : Option DHError

/-- head from client.go: a HEAD request whose only failure statuses are
those at least 400 other than 404. -/
def head {σ : Type} (srv : Server σ) (endpoint : String) (c : Client) (s : σ) : HeadStep σ :=
  match authenticate srv c s with
  | ⟨c2, s2, lg, some e⟩ => ⟨c2, s2, lg, 0, some e⟩
  | ⟨c2, s2, lg, none⟩ =>
    let req : HttpReq := ⟨"HEAD", baseURL ++ endpoint, none, some c2.jwt⟩
    match srv s2 req with
    | (s3, .transportErr m) => ⟨c2, s3, lg ++ [req], 0, some (.httpRequest m)⟩
    | (s3, .response status _) =>
      if 400 ≤ status ∧ status ≠ 404 then
        ⟨c2, s3, lg ++ [req], status, some (.headApiError status)⟩
      else ⟨c2, s3, lg ++ [req], status, none⟩

/-- Result of getAll: res is none exactly when the fuel bound was hit
before the loop of the source returned; otherwise it is Go's
([]T, error) return pair. -/
structure PagesStep (σ : Type) (T : Type) where
  client : Client
  server : σ
  log : List HttpReq
  res : Option (List T × Option DHError)

/-- The page URL getAll builds: endpoint?page=N&page_size=50. -/
def pageURL (endpoint : String) (page : Nat) : String :=
  endpoint ++ "?page=" ++ toString page ++ "&page_size=50"

/-- The loop body of getAll from client.go, with an explicit fuel bound
standing for the unbounded `for` loop (the source loop has no bound; the
fuel makes the model total without changing any terminating run). -/
def getAllLoop {σ T : Type} (srv : Server σ) (endpoint : String)
    (decT : Json → Except String T) :
    Nat → Nat → List T → Client → σ → PagesStep σ T
  | 0, _, _, c, s => ⟨c, s, [], none⟩
  | fuel + 1, page, acc, c, s =>
    let r := get srv (pageURL endpoint page)
      (some (emptyEnvelope T, rawDecode (decodeEnvelopeJ decT))) c s
    match r.err with
    | some e => ⟨r.client, r.server, r.log, some ([], some e)⟩
    | none =>
      let env := r.out.getD (emptyEnvelope T)
      let acc2 := acc ++ env.Results
      match env.Next with
      | none => ⟨r.client, r.server, r.log, some (acc2, none)⟩
      | some _ =>
        let rest := getAllLoop srv endpoint decT fuel (page + 1) acc2 r.client r.server
        ⟨rest.client, rest.server, r.log ++ rest.log, rest.res⟩

/-- getAll from client.go: pages start at 1 with an empty accumulator. -/
def getAll {σ T : Type} (srv : Server σ) (endpoint : String)
    (decT : Json → Except String T) (fuel : Nat) (c : Client) (s : σ) : PagesStep σ T :=
  getAllLoop srv endpoint decT fuel 1 [] c s

/-- The collection path /v2/namespaces/ns/repositories used by ListRepos
and CreateRepo. -/
def reposPath (ns : String) : String :=
  "/v2/namespaces/" ++ ns ++ "/repositories"

/-- The detail path /v2/namespaces/ns/repositories/name used by GetRepo,
RepoExists and DeleteRepo. -/
def repoPath (ns name : String) : String :=
  "/v2/namespaces/" ++ ns ++ "/repositories/" ++ name

/-- Ping from client.go. -/
def Ping {σ : Type} (srv : Server σ) (c : Client) (s : σ) : AuthStep σ :=
  authenticate srv c s

/-- ListRepos from client.go. -/
def ListRepos {σ : Type} (srv : Server σ) (ns : String) (fuel : Nat) (c : Client) (s : σ) :
    PagesStep σ Repository :=
  getAll srv (reposPath ns) decodeRepositoryJ fuel c s

/-- GetRepo from client.go. -/
def GetRepo {σ : Type} (srv : Server σ) (ns name : String) (c : Client) (s : σ) :
    CallStep σ (Option Repository) :=
  let r := get srv (repoPath ns name)
    (some (zeroRepository, rawDecode decodeRepositoryJ)) c s
  match r.err with
  | some e => ⟨r.client, r.server, r.log, none, some e⟩
  | none => ⟨r.client, r.server, r.log, r.out, none⟩

/-- RepoExists from client.go: a HEAD probe, true iff the status is
exactly 200. -/
def RepoExists {σ : Type} (srv : Server σ) (ns name : String) (c : Client) (s : σ) :
    CallStep σ Bool :=
  let r := head srv (repoPath ns name) c s
  match r.err with
  | some e => ⟨r.client, r.server, r.log, false, some e⟩
  | none => ⟨r.client, r.server, r.log, r.status == 200, none⟩

/-- The creation payload CreateRepo posts. -/
def createRepoPayload (ns name description : String) (isPrivate : Bool) : Json :=
  .obj [(("name"), .str name), (("namespace"), .str ns),
        (("description"), .str description), (("is_private"), .bool isPrivate)]

/-- CreateRepo from client.go. -/
def CreateRepo {σ : Type} (srv : Server σ) (ns name description : String) (isPrivate : Bool)
    (c : Client) (s : σ) : CallStep σ (Option Repository) :=
  let r := post srv (reposPath ns)
    (createRepoPayload ns name description isPrivate)
    (some (zeroRepository, rawDecode decodeRepositoryJ)) c s
  match r.err with
  | some e => ⟨r.client, r.server, r.log, none, some e⟩
  | none => ⟨r.client, r.server, r.log, r.out, none⟩

/-- EnsureRepo from client.go: create only when the existence probe says
the repository is absent. -/
def EnsureRepo {σ : Type} (srv : Server σ) (ns name : String) (c : Client) (s : σ) :
    CallStep σ Unit :=
  let r := RepoExists srv ns name c s
  match r.err with
  | some e => ⟨r.client, r.server, r.log, (), some (.checkRepoExistence e)⟩
  | none =>
    if r.out then ⟨r.client, r.server, r.log, (), none⟩
    else
      let r2 := CreateRepo srv ns name ("") false r.client r.server
      match r2.err with
      | some e => ⟨r2.client, r2.server, r.log ++ r2.log, (), some (.createRepoWrap e)⟩
      | none => ⟨r2.client, r2.server, r.log ++ r2.log, (), none⟩

/-- DeleteRepo from client.go. -/
def DeleteRepo {σ : Type} (srv : Server σ) (ns name : String) (c : Client) (s : σ) :
    CallStep σ (Option Unit) :=
  delete srv (repoPath ns name) c s

/-- The creation payload CreateAccessToken posts. -/
def createTokenPayload (label : String) (scopes : List String) : Json :=
  .obj [(("token_label"), .str label), (("scopes"), .arr (scopes.map Json.str))]

/-- CreateAccessToken from client.go. -/
def CreateAccessToken {σ : Type} (srv : Server σ) (label : String) (scopes : List String)
    (c : Client) (s : σ) : CallStep σ (Option AccessToken) :=
  let r := post srv ("/v2/access-tokens") (createTokenPayload label scopes)
    (some (zeroAccessToken, rawDecode decodeAccessTokenJ)) c s
  match r.err with
  | some e => ⟨r.client, r.server, r.log, none, some e⟩
  | none => ⟨r.client, r.server, r.log, r.out, none⟩

/-- ListAccessTokens from client.go. -/
def ListAccessTokens {σ : Type} (srv : Server σ) (fuel : Nat) (c : Client) (s : σ) :
    PagesStep σ AccessToken :=
  getAll srv ("/v2/access-tokens") decodeAccessTokenJ fuel c s

/-- DeleteAccessToken from client.go. -/
def DeleteAccessToken {σ : Type} (srv : Server σ) (uuid : String) (c : Client) (s : σ) :
    CallStep σ (Option Unit) :=
  delete srv ("/v2/access-tokens/" ++ uuid) c s

/-- A cached token short-circuits authenticate: no request, no change. -/
theorem authenticate_cached {σ : Type} (srv : Server σ) (c : Client) (s : σ)
    (h : c.jwt ≠ "") : authenticate srv c s = ⟨c, s, [], none⟩ := by
  simp [authenticate, h]

/-- Characterization of head against a server that answers the probe with
status k: both the success and the failure branch, for a cached client. -/
theorem head_response {σ : Type} (srv : Server σ) (c : Client) (s s2 : σ)
    (endpoint : String) (k : Nat) (rb : RawBody)
    (hjwt : c.jwt ≠ "")
    (hsrv : srv s ⟨"HEAD", baseURL ++ endpoint, none, some c.jwt⟩ = (s2, .response k rb)) :
    head srv endpoint c s =
      if 400 ≤ k ∧ k ≠ 404 then
        ⟨c, s2, [⟨"HEAD", baseURL ++ endpoint, none, some c.jwt⟩], k, some (.headApiError k)⟩
      else ⟨c, s2, [⟨"HEAD", baseURL ++ endpoint, none, some c.jwt⟩], k, none⟩ := by
  unfold head
  rw [authenticate_cached srv c s hjwt]
  simp only [hsrv, List.nil_append]

/-- C1: RepoExists(namespace, name) returns true exactly when the HEAD
probe's HTTP status is 200; a 404 status yields a successful result of
false, not an error; and for every other status at least 400 (notably
401/403) the call returns an error rather than resolving to not-exists. -/
theorem C1_repoExists_status_semantics {σ : Type} (srv : Server σ) (c : Client)
    (s s2 : σ) (ns name : String) (k : Nat) (rb : RawBody)
    (hjwt : c.jwt ≠ "")
    (hsrv : srv s ⟨"HEAD", baseURL ++ repoPath ns name, none, some c.jwt⟩
      = (s2, .response k rb)) :
    ((RepoExists srv ns name c s).err = none ∧ (RepoExists srv ns name c s).out = true
        ↔ k = 200)
    ∧ (k = 404 → (RepoExists srv ns name c s).err = none
        ∧ (RepoExists srv ns name c s).out = false)
    ∧ (400 ≤ k → k ≠ 404 →
        (RepoExists srv ns name c s).err = some (DHError.headApiError k)) := by
  unfold RepoExists
  rw [head_response srv c s s2 (repoPath ns name) k rb hjwt hsrv]
  by_cases hk : 400 ≤ k ∧ k ≠ 404
  · simp only [if_pos hk]
    refine ⟨?_, ?_, ?_⟩
    · constructor
      · rintro ⟨h1, _⟩; exact absurd h1 (by simp)
      · intro h200; omega
    · intro h404; exact absurd h404 hk.2
    · intro _ _; trivial
  · simp only [if_neg hk]
    refine ⟨?_, ?_, ?_⟩
    · constructor
      · rintro ⟨_, h2⟩
        simpa using h2
      · intro h200; subst h200; simp
    · intro h404; subst h404; simp
    · intro h1 h2; exact absurd ⟨h1, h2⟩ hk

/-- Witness for C1: a one-shot server answering the probe with 200 makes
RepoExists answer true. -/
theorem C1_witness :
    let srv : Server Unit := fun s _ => (s, .response 200 .empty)
    let c : Client := ⟨"u", "p", "tok"⟩
    (RepoExists srv ("ns") ("repo") c ()).err = none
      ∧ (RepoExists srv ("ns") ("repo") c ()).out = true := by
  intro srv c
  exact (C1_repoExists_status_semantics srv c () () ("ns") ("repo") 200 .empty
    (by decide) rfl).1.mpr rfl

/-- Full characterization of doRequest for a cached client whose server
answers the one request with status k and body raw. -/
theorem doRequest_response {σ α : Type} (srv : Server σ) (c : Client) (s s2 : σ)
    (method endpoint : String) (body : Option Json)
    (tgt : Option (α × (RawBody → Except String α))) (k : Nat) (raw : RawBody)
    (hjwt : c.jwt ≠ "")
    (hsrv : srv s ⟨method, baseURL ++ endpoint, body, some c.jwt⟩ = (s2, .response k raw)) :
    doRequest srv method endpoint body tgt c s =
      (let req : HttpReq := ⟨method, baseURL ++ endpoint, body, some c.jwt⟩
      if 400 ≤ k then
        match rawDecode decodeErrorResponseJ raw with
        | .ok apiErr =>
          if apiErr.text ≠ "" then
            ⟨c, s2, [req], k, tgt.map Prod.fst,
              some (.apiErrorMsg method endpoint k apiErr.text raw.render)⟩
          else
            ⟨c, s2, [req], k, tgt.map Prod.fst,
              some (.apiErrorNoMsg method endpoint k raw.render)⟩
        | .error _ =>
          ⟨c, s2, [req], k, tgt.map Prod.fst,
            some (.apiErrorNoMsg method endpoint k raw.render)⟩
      else
        match tgt with
        | none => ⟨c, s2, [req], k, none, none⟩
        | some (init, dec) =>
          if raw.nonempty then
            match dec raw with
            | .ok v => ⟨c, s2, [req], k, some v, none⟩
            | .error m => ⟨c, s2, [req], k, some init, some (.decodeResponse m)⟩
          else ⟨c, s2, [req], k, some init, none⟩) := by
  unfold doRequest
  rw [authenticate_cached srv c s hjwt]
  simp only [hsrv, List.nil_append]

/-- C10: when the server answers an authenticated request with a status
below 400 and an empty body, doRequest succeeds and leaves the requested
decode target at its initial value; in particular GetRepo returns the
zero-valued Repository with no error. -/
theorem C10_empty_body_success {σ α : Type} (srv : Server σ) (c : Client)
    (s s2 s3 : σ) (ns name method endpoint : String) (body : Option Json)
    (init : α) (dec : RawBody → Except String α) (k k2 : Nat)
    (hjwt : c.jwt ≠ "") (hk : k < 400) (hk2 : k2 < 400)
    (hsrv : srv s ⟨method, baseURL ++ endpoint, body, some c.jwt⟩
      = (s2, .response k .empty))
    (hsrv2 : srv s ⟨"GET", baseURL ++ repoPath ns name, none, some c.jwt⟩
      = (s3, .response k2 .empty)) :
    doRequest srv method endpoint body (some (init, dec)) c s
      = ⟨c, s2, [⟨method, baseURL ++ endpoint, body, some c.jwt⟩], k, some init, none⟩
    ∧ GetRepo srv ns name c s
      = ⟨c, s3, [⟨"GET", baseURL ++ repoPath ns name, none, some c.jwt⟩],
          some zeroRepository, none⟩ := by
  constructor
  · rw [doRequest_response srv c s s2 method endpoint body (some (init, dec)) k .empty hjwt hsrv]
    simp only [if_neg (by omega : ¬ 400 ≤ k)]
    rfl
  · unfold GetRepo get
    rw [doRequest_response srv c s s3 ("GET") (repoPath ns name) none
      (some (zeroRepository, rawDecode decodeRepositoryJ)) k2 .empty hjwt hsrv2]
    simp only [if_neg (by omega : ¬ 400 ≤ k2)]
    rfl

/-- Witness for C10: a server answering 200 with an empty body makes
GetRepo return the zero repository without error. -/
theorem C10_witness :
    let srv : Server Unit := fun s _ => (s, .response 200 .empty)
    let c : Client := ⟨"u", "p", "tok"⟩
    GetRepo srv ("ns") ("repo") c ()
      = ⟨c, (), [⟨"GET", baseURL ++ repoPath ("ns") ("repo"), none, some (("tok" : String))⟩],
          some zeroRepository, none⟩ := by
  intro srv c
  exact (C10_empty_body_success srv c () () () ("ns") ("repo") ("GET") ("/x") none
    () (fun _ => .ok ()) 200 200 (by decide) (by omega) (by omega) rfl rfl).2

/-- C5: errorResponse.text prefers message over detail; when the message
is empty the detail is used; and when no non-empty message can be
extracted from a status-at-least-400 response, the surfaced error string
contains the literal numeric HTTP status code. -/
theorem C5_error_text_precedence {σ : Type} (srv : Server σ) (c : Client)
    (s s2 : σ) (method endpoint : String) (body : Option Json) (k : Nat)
    (raw : RawBody) (m d : String)
    (hjwt : c.jwt ≠ "") (hk : 400 ≤ k)
    (hsrv : srv s ⟨method, baseURL ++ endpoint, body, some c.jwt⟩
      = (s2, .response k raw)) :
    (m ≠ "" → errorResponse.text ⟨m, d⟩ = m)
    ∧ errorResponse.text ⟨"", d⟩ = d
    ∧ (rawDecode decodeErrorResponseJ raw = .ok ⟨m, d⟩ → m ≠ "" →
        (doRequest srv method endpoint body
            (none : Option (Unit × (RawBody → Except String Unit))) c s).err
          = some (.apiErrorMsg method endpoint k m raw.render))
    ∧ ((∀ e, rawDecode decodeErrorResponseJ raw = .ok e → e.text = "") →
        (doRequest srv method endpoint body
            (none : Option (Unit × (RawBody → Except String Unit))) c s).err
          = some (.apiErrorNoMsg method endpoint k raw.render)
        ∧ ∃ p q, (DHError.apiErrorNoMsg method endpoint k raw.render).render
            = p ++ toString k ++ q) := by
  refine ⟨?_, ?_, ?_, ?_⟩
  · intro hm; simp [errorResponse.text, hm]
  · simp [errorResponse.text]
  · intro hdec hm
    rw [doRequest_response srv c s s2 method endpoint body _ k raw hjwt hsrv]
    simp only [if_pos hk, hdec]
    have htext : errorResponse.text ⟨m, d⟩ = m := by simp [errorResponse.text, hm]
    simp [htext, hm]
  · intro hfb
    rw [doRequest_response srv c s s2 method endpoint body _ k raw hjwt hsrv]
    constructor
    · simp only [if_pos hk]
      cases hdec : rawDecode decodeErrorResponseJ raw with
      | ok e => simp [hfb e hdec]
      | error e2 => simp
    · refine ⟨"docker hub api error (" ++ method ++ " " ++ endpoint ++ ", status ",
        ")" ++ "\nresponse body: " ++ raw.render, ?_⟩
      simp [DHError.render, String.append_assoc]

/-- Witness for C5: a concrete 500 response whose body has both fields,
and one whose body has neither. -/
theorem C5_witness :
    let srv : Server Unit := fun s _ =>
      (s, .response 500 (.json (.obj [(("message"), .str ("boom")), (("detail"), .str ("ignored"))])))
    let c : Client := ⟨"u", "p", "tok"⟩
    errorResponse.text ⟨"boom", "ignored"⟩ = "boom"
    ∧ errorResponse.text ⟨"", "ignored"⟩ = "ignored"
    ∧ (doRequest srv ("GET") ("/x") none
          (none : Option (Unit × (RawBody → Except String Unit))) c ()).err
        = some (.apiErrorMsg ("GET") ("/x") 500 ("boom")
            ((RawBody.json (.obj [(("message"), .str ("boom")), (("detail"), .str ("ignored"))])).render)) := by
  intro srv c
  have h := C5_error_text_precedence srv c () ()
    ("GET") ("/x") none 500
    (.json (.obj [(("message"), .str ("boom")), (("detail"), .str ("ignored"))]))
    ("boom") ("ignored") (by decide) (by omega) rfl
  exact ⟨h.1 (by decide), h.2.1, h.2.2.1 rfl (by decide)⟩

/-- C7: a malformed JSON body on a success status yields a decode-kind
failure from doRequest, a status at least 400 yields an API-error-kind
failure, and no decode-kind error equals an API-error-kind error. -/
theorem C7_decode_vs_api_error {σ : Type} (srv : Server σ) (c : Client)
    (s s2 : σ) (method endpoint : String) (body : Option Json) (k : Nat)
    (raw : RawBody) (init : α) (dec : RawBody → Except String α)
    (hjwt : c.jwt ≠ "")
    (hsrv : srv s ⟨method, baseURL ++ endpoint, body, some c.jwt⟩
      = (s2, .response k raw)) :
    (∀ m2, k < 400 → raw.nonempty = true → dec raw = .error m2 →
        (doRequest srv method endpoint body (some (init, dec)) c s).err
          = some (.decodeResponse m2))
    ∧ (400 ≤ k → ∃ e, (doRequest srv method endpoint body (some (init, dec)) c s).err = some e
        ∧ (∀ m2, e ≠ .decodeResponse m2))
    ∧ (∀ m2 me ep k2 m3 b2, DHError.decodeResponse m2 ≠ .apiErrorMsg me ep k2 m3 b2)
    ∧ (∀ m2 me ep k2 b2, DHError.decodeResponse m2 ≠ .apiErrorNoMsg me ep k2 b2) := by
  refine ⟨?_, ?_, ?_, ?_⟩
  · intro m2 hk hne hdec
    rw [doRequest_response srv c s s2 method endpoint body _ k raw hjwt hsrv]
    simp only [if_neg (by omega : ¬ 400 ≤ k), hne, hdec]
    simp
  · intro hk
    rw [doRequest_response srv c s s2 method endpoint body _ k raw hjwt hsrv]
    simp only [if_pos hk]
    cases hdec : rawDecode decodeErrorResponseJ raw with
    | ok e =>
      by_cases ht : e.text = ""
      · refine ⟨.apiErrorNoMsg method endpoint k raw.render, ?_,
          fun m2 h => DHError.noConfusion h⟩
        simp [hdec, ht]
      · refine ⟨.apiErrorMsg method endpoint k e.text raw.render, ?_,
          fun m2 h => DHError.noConfusion h⟩
        simp [hdec, ht]
    | error e2 =>
      refine ⟨.apiErrorNoMsg method endpoint k raw.render, ?_,
        fun m2 h => DHError.noConfusion h⟩
      simp [hdec]
  · intro m2 me ep k2 m3 b2 h; exact DHError.noConfusion h
  · intro m2 me ep k2 b2 h; exact DHError.noConfusion h

/-- Witness for C7: a 200 response with a malformed body produces the
decode-kind error on a request with a decode target. -/
theorem C7_witness :
    let srv : Server Unit := fun s _ => (s, .response 200 (.malformed ("not json")))
    let c : Client := ⟨"u", "p", "tok"⟩
    (doRequest srv ("GET") ("/x") none
        (some (zeroRepository, rawDecode decodeRepositoryJ)) c ()).err
      = some (.decodeResponse ("invalid character in JSON input")) := by
  intro srv c
  exact (C7_decode_vs_api_error srv c () () ("GET") ("/x") none 200
    (.malformed ("not json")) zeroRepository (rawDecode decodeRepositoryJ)
    (by decide) rfl).1 ("invalid character in JSON input") (by omega) rfl rfl

/-- Full characterization of authenticate for an uncached client whose
server answers the auth request with r. -/
theorem authenticate_uncached {σ : Type} (srv : Server σ) (c : Client) (s s2 : σ)
    (r : HttpResult) (h : c.jwt = "") (hsrv : srv s (authReq c) = (s2, r)) :
    authenticate srv c s =
      (match r with
      | .transportErr m => ⟨c, s2, [authReq c], some (.authRequest m)⟩
      | .response status raw =>
        if 400 ≤ status then
          match rawDecode decodeErrorResponseJ raw with
          | .ok apiErr =>
            if apiErr.text ≠ "" then ⟨c, s2, [authReq c], some (.authFailedMsg apiErr.text)⟩
            else ⟨c, s2, [authReq c], some (.authFailedStatus status)⟩
          | .error _ => ⟨c, s2, [authReq c], some (.authFailedStatus status)⟩
        else
          match rawDecode decodeAuthJ raw with
          | .error m => ⟨c, s2, [authReq c], some (.decodeAuthResponse m)⟩
          | .ok tok => ⟨⟨c.Username, c.Password, tok⟩, s2, [authReq c], none⟩) := by
  unfold authenticate
  simp only [h, ne_eq, not_true_eq_false, if_false, hsrv]
  cases r <;> rfl

/-- An uncached authenticate call issues exactly the one auth request. -/
theorem authenticate_uncached_log {σ : Type} (srv : Server σ) (c : Client) (s : σ)
    (h : c.jwt = "") : (authenticate srv c s).log = [authReq c] := by
  rcases hr : srv s (authReq c) with ⟨s2, r⟩
  rw [authenticate_uncached srv c s s2 r h hr]
  cases r with
  | transportErr m => rfl
  | response status raw =>
    by_cases hst : 400 ≤ status
    · simp only [if_pos hst]
      cases rawDecode decodeErrorResponseJ raw with
      | ok e =>
        by_cases ht : e.text ≠ "" <;> simp [ht]
      | error e2 => rfl
    · simp only [if_neg hst]
      cases rawDecode decodeAuthJ raw with
      | ok tok => rfl
      | error m => rfl

/-- C3 (amended): every single authenticate call issues at most one
network request; once a non-empty token is cached, every later call to
authenticate returns success immediately with zero additional HTTP
requests; in particular after any authenticate call that succeeds and
leaves a non-empty cached token, every further authenticate call on the
resulting client issues no request at all. -/
theorem C3_auth_cached_no_requests {σ : Type} (srv : Server σ) (c : Client) (s : σ) :
    (authenticate srv c s).log.length ≤ 1
    ∧ (c.jwt ≠ "" → authenticate srv c s = ⟨c, s, [], none⟩)
    ∧ ((authenticate srv c s).err = none → (authenticate srv c s).client.jwt ≠ "" →
        ∀ s3 : σ, authenticate srv (authenticate srv c s).client s3
          = ⟨(authenticate srv c s).client, s3, [], none⟩) := by
  refine ⟨?_, ?_, ?_⟩
  · by_cases hc : c.jwt = ""
    · rw [authenticate_uncached_log srv c s hc]; simp
    · rw [authenticate_cached srv c s hc]; simp
  · intro h; exact authenticate_cached srv c s h
  · intro _ hjwt s3; exact authenticate_cached srv _ s3 hjwt

/-- Witness for the amended C3: a client holding a cached token makes a
second authenticate call a no-op, and call logs are at most one long. -/
theorem C3_witness :
    let srv : Server Unit := fun s _ => (s, .response 200 (.json (.obj [])))
    let c : Client := ⟨"u", "p", "tok"⟩
    (authenticate srv c ()).log.length ≤ 1
    ∧ authenticate srv c () = ⟨c, (), [], none⟩ := by
  intro srv c
  have h := C3_auth_cached_no_requests srv c ()
  exact ⟨h.1, h.2.1 (by decide)⟩

/-- Counterexample to C3 as stated: against a server whose success body
carries no access_token, two successive authenticate calls on one client
instance both succeed yet each issues an authentication network request,
so the instance issues two in total, not at most one. -/
theorem C3_counterexample :
    let srv : Server Unit := fun s _ => (s, .response 200 (.json (.obj [])))
    let c : Client := NewClient ("user") ("pass")
    let r1 := authenticate srv c ()
    let r2 := authenticate srv r1.client ()
    r1.err = none ∧ r2.err = none ∧ r1.log.length = 1 ∧ r2.log.length = 1 := by
  intro srv c r1 r2
  exact ⟨rfl, rfl, rfl, rfl⟩

/-- C9: a success-status auth response whose JSON body decodes but has no
(or an empty) access_token makes authenticate return success while the
cached token stays empty, so the cache guard does not apply and the next
authenticate call on the same client re-issues the auth network request. -/
theorem C9_empty_token_reauthenticates {σ : Type} (srv : Server σ) (c : Client)
    (s s2 : σ) (k : Nat) (raw : RawBody)
    (hjwt : c.jwt = "") (hk : k < 400)
    (hsrv : srv s (authReq c) = (s2, .response k raw))
    (hdec : rawDecode decodeAuthJ raw = .ok ("")) :
    authenticate srv c s = ⟨⟨c.Username, c.Password, ""⟩, s2, [authReq c], none⟩
    ∧ (authenticate srv c s).client.jwt = ""
    ∧ (∀ s3 : σ, (authenticate srv (authenticate srv c s).client s3).log
        = [authReq (authenticate srv c s).client]) := by
  have h1 : authenticate srv c s = ⟨⟨c.Username, c.Password, ""⟩, s2, [authReq c], none⟩ := by
    rw [authenticate_uncached srv c s s2 _ hjwt hsrv]
    simp only [if_neg (by omega : ¬ 400 ≤ k), hdec]
  refine ⟨h1, by rw [h1], ?_⟩
  intro s3
  rw [h1]
  exact authenticate_uncached_log srv _ s3 rfl

/-- Witness for C9: a server answering 200 with an empty JSON object. -/
theorem C9_witness :
    let srv : Server Unit := fun s _ => (s, .response 200 (.json (.obj [])))
    let c : Client := NewClient ("user") ("pass")
    authenticate srv c () = ⟨⟨"user", "pass", ""⟩, (), [authReq c], none⟩
    ∧ (authenticate srv (authenticate srv c ()).client ()).log
        = [authReq (authenticate srv c ()).client] := by
  intro srv c
  have h := C9_empty_token_reauthenticates srv c () () 200 (.json (.obj []))
    rfl (by omega) rfl rfl
  exact ⟨h.1, h.2.2 ()⟩

/-- Whenever the pagination loop surfaces an error, the item list it
returns is nil, whatever was already accumulated. -/
theorem getAllLoop_error_nil {σ T : Type} (srv : Server σ) (endpoint : String)
    (decT : Json → Except String T) :
    ∀ (fuel page : Nat) (acc : List T) (c : Client) (s : σ) (l : List T) (e : DHError),
      (getAllLoop srv endpoint decT fuel page acc c s).res = some (l, some e) → l = [] := by
  intro fuel
  induction fuel with
  | zero =>
    intro page acc c s l e h
    simp [getAllLoop] at h
  | succ n ih =>
    intro page acc c s l e h
    rw [getAllLoop] at h
    cases hr : (get srv (pageURL endpoint page)
        (some (emptyEnvelope T, rawDecode (decodeEnvelopeJ decT))) c s).err with
    | some e2 =>
      rw [hr] at h
      simp only [Option.some.injEq, Prod.mk.injEq] at h
      exact h.1.symm
    | none =>
      rw [hr] at h
      dsimp only at h
      cases hn : ((get srv (pageURL endpoint page)
          (some (emptyEnvelope T, rawDecode (decodeEnvelopeJ decT))) c s).out.getD
          (emptyEnvelope T)).Next with
      | none =>
        rw [hn] at h
        simp only [Option.some.injEq, Prod.mk.injEq] at h
        exact absurd h.2.symm (by simp)
      | some nx =>
        rw [hn] at h
        exact ih (page + 1) _ _ _ l e h

/-- C6: pagination aggregation is atomic on failure: when any page
request inside getAll fails, getAll returns the error together with the
nil sequence, never a partial sequence from earlier pages. -/
theorem C6_getAll_atomic_on_failure {σ T : Type} (srv : Server σ) (endpoint : String)
    (decT : Json → Except String T) (fuel : Nat) (c : Client) (s : σ)
    (l : List T) (e : DHError)
    (h : (getAll srv endpoint decT fuel c s).res = some (l, some e)) : l = [] :=
  getAllLoop_error_nil srv endpoint decT fuel 1 [] c s l e h

/-- Witness for C6: a server whose first page succeeds with one item and
whose second page fails with 500 makes getAll return nil plus the error,
not the one already-collected item. -/
theorem C6_witness :
    let srv : Server Nat := fun n _ =>
      if n = 0 then
        (1, .response 200 (.json (.obj [(("count"), .num 2),
          (("next"), .str ("more")), (("results"), .arr [Json.obj []])])))
      else (n + 1, .response 500 .empty)
    let c : Client := ⟨"u", "p", "tok"⟩
    (getAll srv ("/v2/access-tokens") decodeAccessTokenJ 5 c 0).res
      = some ([], some (.apiErrorNoMsg ("GET") (pageURL ("/v2/access-tokens") 2) 500 ("")))
    ∧ ([] : List AccessToken) = [] := by
  intro srv c
  have h : (getAll srv ("/v2/access-tokens") decodeAccessTokenJ 5 c 0).res
      = some ([], some (.apiErrorNoMsg ("GET") (pageURL ("/v2/access-tokens") 2) 500 (""))) := rfl
  exact ⟨h, C6_getAll_atomic_on_failure srv ("/v2/access-tokens") decodeAccessTokenJ 5 c 0 [] _ h⟩

/-- A stateful mock registry for one namespace/name pair: the state is
whether the repository exists; HEAD on the detail path answers 200/404
accordingly, POST on the collection path creates it (201, empty body),
anything else is a 400. -/
def repoMockServer (ns name : String) : Server Bool := fun ex req =>
  if req.method = "HEAD" ∧ req.url = baseURL ++ repoPath ns name then
    (ex, .response (if ex then 200 else 404) .empty)
  else if req.method = "POST" ∧ req.url = baseURL ++ reposPath ns then
    (true, .response 201 .empty)
  else (ex, .response 400 .empty)

/-- Is this request the repository-creation POST? -/
def isCreateReq (ns : String) (r : HttpReq) : Bool :=
  r.method == "POST" && r.url == baseURL ++ reposPath ns

/-- Run EnsureRepo n times in sequence, recording every call's request
log and outcome. -/
def ensureIter {σ : Type} (srv : Server σ) (ns name : String) :
    Nat → Client → σ → List (List HttpReq × Option DHError) × Client × σ
  | 0, c, s => ([], c, s)
  | n + 1, c, s =>
    let r := EnsureRepo srv ns name c s
    let rest := ensureIter srv ns name n r.client r.server
    ((r.log, r.err) :: rest.1, rest.2)

/-- Against the mock registry, EnsureRepo on an existing repository is a
success that issues only the HEAD probe and changes nothing. -/
theorem ensureRepo_mock_exists (ns name : String) (c : Client) (hjwt : c.jwt ≠ "") :
    EnsureRepo (repoMockServer ns name) ns name c true
      = ⟨c, true, [⟨"HEAD", baseURL ++ repoPath ns name, none, some c.jwt⟩], (), none⟩ := by
  have hsrv : repoMockServer ns name true
      ⟨"HEAD", baseURL ++ repoPath ns name, none, some c.jwt⟩
      = (true, .response 200 .empty) := by
    unfold repoMockServer
    rw [if_pos ⟨rfl, rfl⟩]
    rfl
  unfold EnsureRepo RepoExists
  rw [head_response (repoMockServer ns name) c true true (repoPath ns name) 200 .empty hjwt hsrv]
  rw [if_neg (by omega : ¬ (400 ≤ 200 ∧ 200 ≠ 404))]
  rfl

/-- Against the mock registry, EnsureRepo on an absent repository issues
the HEAD probe followed by exactly one creation POST, succeeds, and
leaves the repository existing. -/
theorem ensureRepo_mock_absent (ns name : String) (c : Client) (hjwt : c.jwt ≠ "") :
    EnsureRepo (repoMockServer ns name) ns name c false
      = ⟨c, true,
          [⟨"HEAD", baseURL ++ repoPath ns name, none, some c.jwt⟩,
           ⟨"POST", baseURL ++ reposPath ns, some (createRepoPayload ns name ("") false),
             some c.jwt⟩],
          (), none⟩ := by
  have hsrv1 : repoMockServer ns name false
      ⟨"HEAD", baseURL ++ repoPath ns name, none, some c.jwt⟩
      = (false, .response 404 .empty) := by
    unfold repoMockServer
    rw [if_pos ⟨rfl, rfl⟩]
    rfl
  have hsrv2 : repoMockServer ns name false
      ⟨"POST", baseURL ++ reposPath ns, some (createRepoPayload ns name ("") false), some c.jwt⟩
      = (true, .response 201 .empty) := by
    unfold repoMockServer
    dsimp only
    rw [if_neg (fun h => by simp at h), if_pos ⟨rfl, rfl⟩]
  unfold EnsureRepo RepoExists
  rw [head_response (repoMockServer ns name) c false false (repoPath ns name) 404 .empty hjwt hsrv1]
  rw [if_neg (by omega : ¬ (400 ≤ 404 ∧ 404 ≠ 404))]
  dsimp only
  unfold CreateRepo post
  rw [doRequest_response (repoMockServer ns name) c false true ("POST") (reposPath ns)
    (some (createRepoPayload ns name ("") false))
    (some (zeroRepository, rawDecode decodeRepositoryJ)) 201 .empty hjwt hsrv2]
  rw [if_neg (by omega : ¬ (400 ≤ 201))]
  rfl

/-- After the repository exists, every further EnsureRepo run against the
mock registry succeeds without issuing any creation request. -/
theorem ensureIter_exists_no_creates (ns name : String) :
    ∀ (n : Nat) (c : Client), c.jwt ≠ "" →
      ∀ pr ∈ (ensureIter (repoMockServer ns name) ns name n c true).1,
        pr.2 = none ∧ pr.1.countP (fun r => isCreateReq ns r) = 0 := by
  intro n
  induction n with
  | zero => intro c hjwt pr hpr; simp [ensureIter] at hpr
  | succ m ih =>
    intro c hjwt pr hpr
    rw [ensureIter] at hpr
    rw [ensureRepo_mock_exists ns name c hjwt] at hpr
    simp only [List.mem_cons] at hpr
    cases hpr with
    | inl h =>
      subst h
      exact ⟨rfl, rfl⟩
    | inr h =>
      exact ih c hjwt pr h

/-- C2: against a stateful mock registry in which the repository does not
exist, running EnsureRepo N (at least 1) times issues exactly one create
request in total, that one on the first invocation, and every invocation
returns success. -/
theorem C2_ensureRepo_exactly_once (ns name : String) (c : Client) (n : Nat)
    (hjwt : c.jwt ≠ "") (hn : 1 ≤ n) :
    (∀ pr ∈ (ensureIter (repoMockServer ns name) ns name n c false).1, pr.2 = none)
    ∧ ((ensureIter (repoMockServer ns name) ns name n c false).1.map
          (fun pr => pr.1.countP (fun r => isCreateReq ns r))).sum = 1
    ∧ ((ensureIter (repoMockServer ns name) ns name n c false).1.head?.map
          (fun pr => pr.1.countP (fun r => isCreateReq ns r))) = some 1 := by
  obtain ⟨m, rfl⟩ : ∃ m, n = m + 1 := ⟨n - 1, by omega⟩
  rw [ensureIter]
  rw [ensureRepo_mock_absent ns name c hjwt]
  dsimp only
  have hcount : ([⟨"HEAD", baseURL ++ repoPath ns name, none, some c.jwt⟩,
      ⟨"POST", baseURL ++ reposPath ns, some (createRepoPayload ns name ("") false),
        some c.jwt⟩] : List HttpReq).countP (fun r => isCreateReq ns r) = 1 := by
    have hp1 : isCreateReq ns ⟨"HEAD", baseURL ++ repoPath ns name, none, some c.jwt⟩
        = false := rfl
    have hp2 : isCreateReq ns ⟨"POST", baseURL ++ reposPath ns,
        some (createRepoPayload ns name ("") false), some c.jwt⟩ = true := by
      simp [isCreateReq]
    simp [List.countP_cons, hp1, hp2]
  refine ⟨?_, ?_, ?_⟩
  · intro pr hpr
    simp only [List.mem_cons] at hpr
    cases hpr with
    | inl h => subst h; rfl
    | inr h => exact (ensureIter_exists_no_creates ns name m c hjwt pr h).1
  · rw [List.map_cons, List.sum_cons, hcount]
    have hzero : ((ensureIter (repoMockServer ns name) ns name m c true).1.map
        (fun pr => pr.1.countP (fun r => isCreateReq ns r))).sum = 0 := by
      apply List.sum_eq_zero
      intro x hx
      simp only [List.mem_map] at hx
      obtain ⟨pr, hpr, hxeq⟩ := hx
      rw [← hxeq]
      exact (ensureIter_exists_no_creates ns name m c hjwt pr hpr).2
    rw [hzero]
  · simp [List.head?_cons, hcount]

/-- Witness for C2: three runs against the mock registry for a concrete
namespace and name: every run succeeds and exactly one create happens. -/
theorem C2_witness :
    (∀ pr ∈ (ensureIter (repoMockServer ("myns") ("myrepo")) ("myns") ("myrepo") 3
        ⟨"u", "p", "tok"⟩ false).1, pr.2 = none)
    ∧ ((ensureIter (repoMockServer ("myns") ("myrepo")) ("myns") ("myrepo") 3
        ⟨"u", "p", "tok"⟩ false).1.map
          (fun pr => pr.1.countP (fun r => isCreateReq ("myns") r))).sum = 1 := by
  have h := C2_ensureRepo_exactly_once ("myns") ("myrepo") ⟨"u", "p", "tok"⟩ 3
    (by decide) (by omega)
  exact ⟨h.1, h.2.1⟩

/-- The JSON page body the paged mock server serves: a count, a next link
exactly when more pages remain (null otherwise), and the page's items. -/
def pagesBody (endpoint : String) (p : Nat) (items : List Json) (hasNext : Bool) : RawBody :=
  .json (.obj [(("count"), .num items.length),
    (("next"), if hasNext then .str (pageURL endpoint (p + 1)) else .null),
    (("results"), .arr items)])

/-- A mock paginated server: its state is the next page number to serve
plus the remaining pages; it serves them in order to GET requests on the
matching page URL. -/
def pagedServer (endpoint : String) : Server (Nat × List (List Json)) := fun st req =>
  match st.2 with
  | [] => (st, .response 404 .empty)
  | items :: rest =>
    if req.method = "GET" ∧ req.url = baseURL ++ pageURL endpoint st.1 then
      ((st.1 + 1, rest), .response 200 (pagesBody endpoint st.1 items (!rest.isEmpty)))
    else (st, .response 400 .empty)

/-- The envelope decoder accepts the mock page body and yields exactly
the decoded items with the advertised next cursor. -/
theorem decode_pagesBody {T : Type} (decT : Json → Except String T) (endpoint : String)
    (p : Nat) (items : List Json) (hasNext : Bool) (ts : List T)
    (h : decodeList decT items = .ok ts) :
    rawDecode (decodeEnvelopeJ decT) (pagesBody endpoint p items hasNext)
      = .ok ⟨items.length, if hasNext then some (pageURL endpoint (p + 1)) else none,
          none, ts⟩ := by
  cases hasNext with
  | false =>
    have hred : rawDecode (decodeEnvelopeJ decT) (pagesBody endpoint p items false)
        = (match decodeList decT items with
           | .ok rs => .ok ⟨(items.length : Int), none, none, rs⟩
           | .error e => .error e) := rfl
    rw [hred, h]
    rfl
  | true =>
    have hred : rawDecode (decodeEnvelopeJ decT) (pagesBody endpoint p items true)
        = (match decodeList decT items with
           | .ok rs => .ok ⟨(items.length : Int), some (pageURL endpoint (p + 1)), none, rs⟩
           | .error e => .error e) := rfl
    rw [hred, h]
    rfl

/-- Shifting a range-indexed map by one position. -/
theorem range_map_shift {α : Type} (g : Nat → α) (p n : Nat) :
    g p :: (List.range n).map (fun i => g (p + 1 + i))
      = (List.range (n + 1)).map (fun i => g (p + i)) := by
  rw [List.range_succ_eq_map]
  simp only [List.map_cons, List.map_map, Nat.add_zero]
  congr 1
  apply List.map_congr_left
  intro i _
  simp only [Function.comp]
  congr 1
  omega

/-- One full run of the pagination loop against the paged mock server,
by induction over the page list: it aggregates every page's items in
order and the request log visits consecutive page numbers. -/
theorem getAllLoop_paged {T : Type} (endpoint : String) (decT : Json → Except String T) :
    ∀ (pages : List (List Json)) (tss : List (List T)) (p fuel : Nat) (acc : List T)
      (c : Client),
      c.jwt ≠ "" → pages ≠ [] → pages.length ≤ fuel →
      pages.map (decodeList decT) = tss.map Except.ok →
      (getAllLoop (pagedServer endpoint) endpoint decT fuel p acc c (p, pages)).res
          = some (acc ++ tss.flatten, none)
      ∧ (getAllLoop (pagedServer endpoint) endpoint decT fuel p acc c (p, pages)).log.map
            (fun r => r.url)
          = (List.range pages.length).map (fun i => baseURL ++ pageURL endpoint (p + i)) := by
  intro pages
  induction pages with
  | nil => intro tss p fuel acc c _ hne; exact absurd rfl hne
  | cons items rest ih =>
    intro tss p fuel acc c hjwt _ hfuel hdec
    cases tss with
    | nil => simp at hdec
    | cons ts tss2 =>
      simp only [List.map_cons, List.cons.injEq] at hdec
      obtain ⟨hd1, hd2⟩ := hdec
      cases fuel with
      | zero => simp at hfuel
      | succ f =>
        have hsrv : pagedServer endpoint (p, items :: rest)
            ⟨"GET", baseURL ++ pageURL endpoint p, none, some c.jwt⟩
            = ((p + 1, rest), .response 200 (pagesBody endpoint p items (!rest.isEmpty))) := by
          unfold pagedServer
          dsimp only
          rw [if_pos ⟨rfl, rfl⟩]
        have hget : get (pagedServer endpoint) (pageURL endpoint p)
            (some (emptyEnvelope T, rawDecode (decodeEnvelopeJ decT))) c (p, items :: rest)
            = ⟨c, (p + 1, rest), [⟨"GET", baseURL ++ pageURL endpoint p, none, some c.jwt⟩],
                some ⟨items.length,
                  if !rest.isEmpty then some (pageURL endpoint (p + 1)) else none, none, ts⟩,
                none⟩ := by
          unfold get
          rw [doRequest_response (pagedServer endpoint) c (p, items :: rest) (p + 1, rest)
            ("GET") (pageURL endpoint p) none
            (some (emptyEnvelope T, rawDecode (decodeEnvelopeJ decT))) 200
            (pagesBody endpoint p items (!rest.isEmpty)) hjwt hsrv]
          rw [if_neg (by omega : ¬ (400 ≤ 200))]
          simp only [decode_pagesBody decT endpoint p items (!rest.isEmpty) ts hd1]
          rfl
        cases rest with
        | nil =>
          have htss2 : tss2 = [] := by
            have := hd2.symm
            simpa using this
          subst htss2
          have hstep : getAllLoop (pagedServer endpoint) endpoint decT (f + 1) p acc c
              (p, [items])
              = ⟨c, (p + 1, []), [⟨"GET", baseURL ++ pageURL endpoint p, none, some c.jwt⟩],
                  some (acc ++ ts, none)⟩ := by
            rw [getAllLoop, hget]
            rfl
          rw [hstep]
          constructor
          · simp
          · simp [List.range_succ]
        | cons pg2 rest2 =>
          have hlen : (pg2 :: rest2).length ≤ f := by
            simp only [List.length_cons] at hfuel ⊢
            omega
          have hih := ih tss2 (p + 1) f (acc ++ ts) c hjwt (by simp) hlen hd2
          have hstep : getAllLoop (pagedServer endpoint) endpoint decT (f + 1) p acc c
              (p, items :: pg2 :: rest2)
              = ⟨(getAllLoop (pagedServer endpoint) endpoint decT f (p + 1) (acc ++ ts) c
                    (p + 1, pg2 :: rest2)).client,
                 (getAllLoop (pagedServer endpoint) endpoint decT f (p + 1) (acc ++ ts) c
                    (p + 1, pg2 :: rest2)).server,
                 [⟨"GET", baseURL ++ pageURL endpoint p, none, some c.jwt⟩]
                   ++ (getAllLoop (pagedServer endpoint) endpoint decT f (p + 1) (acc ++ ts) c
                    (p + 1, pg2 :: rest2)).log,
                 (getAllLoop (pagedServer endpoint) endpoint decT f (p + 1) (acc ++ ts) c
                    (p + 1, pg2 :: rest2)).res⟩ := by
            rw [getAllLoop, hget]
            rfl
          rw [hstep]
          constructor
          · dsimp only
            rw [hih.1]
            simp [List.append_assoc]
          · dsimp only
            rw [List.singleton_append, List.map_cons, hih.2]
            exact range_map_shift (fun i => baseURL ++ pageURL endpoint i) p
              (pg2 :: rest2).length

/-- C4: getAll returns the concatenation, in order, of every page's
results; it requests pages 1, 2, 3, ... (page size 50 in the URL) and
stops exactly when a page's next cursor is null; with enough fuel for the
page count, the loop completes (the source loop terminates). -/
theorem C4_getAll_collects_all_pages {T : Type} (endpoint : String)
    (decT : Json → Except String T) (pages : List (List Json)) (tss : List (List T))
    (fuel : Nat) (c : Client)
    (hjwt : c.jwt ≠ "") (hne : pages ≠ []) (hfuel : pages.length ≤ fuel)
    (hdec : pages.map (decodeList decT) = tss.map Except.ok) :
    (getAll (pagedServer endpoint) endpoint decT fuel c (1, pages)).res
        = some (tss.flatten, none)
    ∧ (getAll (pagedServer endpoint) endpoint decT fuel c (1, pages)).log.map
          (fun r => r.url)
        = (List.range pages.length).map (fun i => baseURL ++ pageURL endpoint (1 + i)) := by
  have h := getAllLoop_paged endpoint decT pages tss 1 fuel [] c hjwt hne hfuel hdec
  unfold getAll
  simpa using h

/-- Decoding a page of n empty JSON objects yields n zero repositories. -/
theorem decodeList_replicate_repo (n : Nat) :
    decodeList decodeRepositoryJ (List.replicate n (Json.obj []))
      = .ok (List.replicate n zeroRepository) := by
  induction n with
  | zero => rfl
  | succ m ih =>
    rw [List.replicate_succ, List.replicate_succ, decodeList, ih]
    rfl

/-- Witness for C4: three pages of sizes 50, 50 and 7 aggregate to 107
items in server order. -/
theorem C4_witness :
    (getAll (pagedServer (reposPath ("myns"))) (reposPath ("myns")) decodeRepositoryJ 3
        ⟨"u", "p", "tok"⟩
        (1, [List.replicate 50 (Json.obj []), List.replicate 50 (Json.obj []),
             List.replicate 7 (Json.obj [])])).res
      = some ([List.replicate 50 zeroRepository, List.replicate 50 zeroRepository,
               List.replicate 7 zeroRepository].flatten, none)
    ∧ ([List.replicate 50 zeroRepository, List.replicate 50 zeroRepository,
        List.replicate 7 zeroRepository] : List (List Repository)).flatten.length = 107 := by
  constructor
  · exact (C4_getAll_collects_all_pages (reposPath ("myns")) decodeRepositoryJ
      [List.replicate 50 (Json.obj []), List.replicate 50 (Json.obj []),
       List.replicate 7 (Json.obj [])]
      [List.replicate 50 zeroRepository, List.replicate 50 zeroRepository,
       List.replicate 7 zeroRepository]
      3 ⟨"u", "p", "tok"⟩ (by decide) (by simp) (by simp)
      (by simp only [List.map_cons, List.map_nil, decodeList_replicate_repo])).1
  · simp

/-- doRequest never alters the client state beyond what authenticate
does: the cached token is unaffected by the response body. -/
theorem doRequest_client {σ α : Type} (srv : Server σ) (method endpoint : String)
    (body : Option Json) (tgt : Option (α × (RawBody → Except String α)))
    (c : Client) (s : σ) :
    (doRequest srv method endpoint body tgt c s).client = (authenticate srv c s).client := by
  unfold doRequest
  rcases ha : authenticate srv c s with ⟨c2, s2, lg, err⟩
  cases err with
  | some e => rfl
  | none =>
    dsimp only
    rcases hr : srv s2 ⟨method, baseURL ++ endpoint, body, some c2.jwt⟩ with ⟨s3, r⟩
    cases r with
    | transportErr m => rfl
    | response st raw =>
      dsimp only
      split
      · split
        · split <;> rfl
        · rfl
      · cases tgt with
        | none => rfl
        | some pr =>
          rcases pr with ⟨init, dec⟩
          dsimp only
          split
          · split <;> rfl
          · rfl

/-- CreateAccessToken leaves the client state exactly as authenticate
left it: the creation response's secret never enters the client. -/
theorem createAccessToken_client {σ : Type} (srv : Server σ) (label : String)
    (scopes : List String) (c : Client) (s : σ) :
    (CreateAccessToken srv label scopes c s).client = (authenticate srv c s).client := by
  unfold CreateAccessToken post
  dsimp only
  cases he : (doRequest srv ("POST") ("/v2/access-tokens")
      (some (createTokenPayload label scopes))
      (some (zeroAccessToken, rawDecode decodeAccessTokenJ)) c s).err with
  | none => exact doRequest_client srv ("POST") ("/v2/access-tokens") _ _ c s
  | some e => exact doRequest_client srv ("POST") ("/v2/access-tokens") _ _ c s

/-- An AccessToken decoded from a JSON object whose token field is absent
or the empty string always has an empty Token field. -/
theorem decodeAccessToken_no_secret (fs : List (String × Json)) (t : AccessToken)
    (hlk : Json.lookup ("token") fs = none ∨ Json.lookup ("token") fs = some (.str ("")))
    (hdec : decodeAccessTokenJ (.obj fs) = .ok t) : t.Token = "" := by
  have htk : getStr fs ("token") = .ok ("") := by
    unfold getStr
    cases hlk with
    | inl h => rw [h]
    | inr h => rw [h]
  unfold decodeAccessTokenJ at hdec
  dsimp only at hdec
  rw [htk] at hdec
  cases hu : getStr fs ("uuid") with
  | error m => rw [hu] at hdec; simp at hdec
  | ok u =>
  rw [hu] at hdec
  cases htl : getStr fs ("token_label") with
  | error m => rw [htl] at hdec; simp at hdec
  | ok tl =>
  rw [htl] at hdec
  cases hsc : getStrList fs ("scopes") with
  | error m => rw [hsc] at hdec; simp at hdec
  | ok sc =>
  rw [hsc] at hdec
  cases hia : getBool fs ("is_active") with
  | error m => rw [hia] at hdec; simp at hdec
  | ok ia =>
  rw [hia] at hdec
  cases hca : getStr fs ("created_at") with
  | error m => rw [hca] at hdec; simp at hdec
  | ok ca =>
  rw [hca] at hdec
  cases hlu : getStr fs ("last_used") with
  | error m => rw [hlu] at hdec; simp at hdec
  | ok lu =>
  rw [hlu] at hdec
  cases hgb : getStr fs ("generated_by") with
  | error m => rw [hgb] at hdec; simp at hdec
  | ok gb =>
  rw [hgb] at hdec
  cases hci : getStr fs ("creator_ip") with
  | error m => rw [hci] at hdec; simp at hdec
  | ok ci =>
  rw [hci] at hdec
  simp only [Except.ok.injEq] at hdec
  subst hdec
  rfl

/-- Counterexample to C8 as stated: when the server itself includes a
non-empty token field in a listing response, ListAccessTokens surfaces an
AccessToken whose secret field is non-empty — the client does not strip
secrets from other operations' responses. -/
theorem C8_counterexample :
    let srv : Server Unit := fun s _ =>
      (s, .response 200 (.json (.obj [(("count"), .num 1), (("next"), .null),
        (("results"), .arr [Json.obj [(("token"), .str ("s3cr3t"))]])])))
    let c : Client := ⟨"u", "p", "tok"⟩
    (ListAccessTokens srv 3 c ()).res
      = some ([⟨"", "", [], false, ("s3cr3t"), "", "", "", ""⟩], none)
    ∧ (("s3cr3t" : String)) ≠ "" := by
  intro srv c
  exact ⟨rfl, by decide⟩

/-- C8 (amended): provided the server omits (or empties) the token field
outside the creation response — as the registry documents — every
AccessToken decoded by the client outside creation has an empty secret
field; and the client core never stores the secret: after
CreateAccessToken the client state is exactly the post-authentication
state, independent of the creation response body. -/
theorem C8_secret_only_in_creation :
    (∀ (fs : List (String × Json)) (t : AccessToken),
        (Json.lookup ("token") fs = none ∨ Json.lookup ("token") fs = some (.str (""))) →
        decodeAccessTokenJ (.obj fs) = .ok t → t.Token = "")
    ∧ (∀ (σ : Type) (srv : Server σ) (label : String) (scopes : List String)
        (c : Client) (s : σ),
        (CreateAccessToken srv label scopes c s).client = (authenticate srv c s).client) :=
  ⟨decodeAccessToken_no_secret,
   fun _ srv label scopes c s => createAccessToken_client srv label scopes c s⟩

/-- Witness for the amended C8 at concrete inputs. -/
theorem C8_witness :
    let srv : Server Unit := fun s _ => (s, .response 200 .empty)
    let c : Client := ⟨"u", "p", "tok"⟩
    (⟨"x", "", [], false, "", "", "", "", ""⟩ : AccessToken).Token = ""
    ∧ (CreateAccessToken srv ("lbl") [("repo:read")] c ()).client
        = (authenticate srv c ()).client := by
  intro srv c
  exact ⟨C8_secret_only_in_creation.1 [(("uuid"), .str ("x"))]
      ⟨"x", "", [], false, "", "", "", "", ""⟩ (Or.inl rfl) rfl,
    C8_secret_only_in_creation.2 Unit srv ("lbl") [("repo:read")] c ()⟩

end DockerHub
